import Mathlib

/-!
Verification development for the gawin_voice repository: a browser voice-chat
front end consisting of two React components (`AIVoiceInterface` in
`src/components/ai-voice-interface.tsx` and `GawinVoiceInterface` in the same
file) and a chat API route.  We shallowly embed the pieces the specification
talks about: the streamed-response accumulator (including a model of
`JSON.parse`), the four-state interaction state machine together with the
recognizer event handlers as the code actually registers them, the failure
fallback paths, the teardown logic, the audio-level sampler, and the chat
route's provider call.

Modelling conventions:
* JS strings and decoded text chunks are `List Char` / `String`.
* `JSON.parse` is embedded as a fuelled recursive-descent parser `jsonParse`
  returning `Option Json`; JS numbers are modelled as rationals (IEEE-754
  rounding is not modelled; no claim depends on numeric values), and the
  string coercion `String(v)` used by `+=` is approximated for the non-string
  cases that no frame in this codebase produces.
* React's `useEffect(..., [])` runs its body exactly once, after the first
  render, so values of `useState` variables captured by handlers registered
  there are the *initial* values; we embed such captured values explicitly
  (`mountCapturedState`, `aiMountIsMuted`).
-/

namespace GawinVoice

/-- Left and right curly-brace characters, referred to by code point. -/
def lbrace : Char := Char.ofNat 123

/-- Right curly-brace character. -/
def rbrace : Char := Char.ofNat 125

/-- JSON values, as produced by the embedded `JSON.parse`. -/
inductive Json where
  | null
  | bool (b : Bool)
  | num (q : ℚ)
  | str (s : String)
  | arr (elems : List Json)
  | obj (fields : List (String × Json))

/-- JSON whitespace. -/
def isJsonWs (c : Char) : Bool :=
  c == ' ' || c == '\t' || c == '\n' || c == '\r'

/-- Drop leading JSON whitespace. -/
def skipWs : List Char → List Char
  | [] => []
  | c :: cs => if isJsonWs c then skipWs cs else c :: cs

/-- Value of a hexadecimal digit. -/
def hexDigitVal (c : Char) : Option Nat :=
  if '0' ≤ c ∧ c ≤ '9' then some (c.toNat - 48)
  else if 'a' ≤ c ∧ c ≤ 'f' then some (c.toNat - 87)
  else if 'A' ≤ c ∧ c ≤ 'F' then some (c.toNat - 55)
  else none

/-- Parse the body of a JSON string literal (after the opening quote), up to
and including the closing quote.  Returns the decoded characters and the
remaining input.  Escapes are decoded as in JS `JSON.parse`; raw control
characters below U+0020 are rejected. -/
def parseStringBody : Nat → List Char → Option (List Char × List Char)
  | 0, _ => none
  | _ + 1, [] => none
  | fuel + 1, c :: cs =>
    if c = '"' then some ([], cs)
    else if c = '\\' then
      match cs with
      | [] => none
      | e :: cs2 =>
        if e = '"' then (parseStringBody fuel cs2).map (fun p => ('"' :: p.1, p.2))
        else if e = '\\' then (parseStringBody fuel cs2).map (fun p => ('\\' :: p.1, p.2))
        else if e = '/' then (parseStringBody fuel cs2).map (fun p => ('/' :: p.1, p.2))
        else if e = 'b' then (parseStringBody fuel cs2).map (fun p => (Char.ofNat 8 :: p.1, p.2))
        else if e = 'f' then (parseStringBody fuel cs2).map (fun p => (Char.ofNat 12 :: p.1, p.2))
        else if e = 'n' then (parseStringBody fuel cs2).map (fun p => ('\n' :: p.1, p.2))
        else if e = 'r' then (parseStringBody fuel cs2).map (fun p => ('\r' :: p.1, p.2))
        else if e = 't' then (parseStringBody fuel cs2).map (fun p => ('\t' :: p.1, p.2))
        else if e = 'u' then
          match cs2 with
          | h1 :: h2 :: h3 :: h4 :: cs3 =>
            match hexDigitVal h1, hexDigitVal h2, hexDigitVal h3, hexDigitVal h4 with
            | some a, some b, some c3, some d =>
              (parseStringBody fuel cs3).map
                (fun p => (Char.ofNat (a * 4096 + b * 256 + c3 * 16 + d) :: p.1, p.2))
            | _, _, _, _ => none
          | _ => none
        else none
    else if c.toNat < 32 then none
    else (parseStringBody fuel cs).map (fun p => (c :: p.1, p.2))

/-- Take a maximal run of decimal digits. -/
def takeDigits : List Char → List Char × List Char
  | [] => ([], [])
  | c :: cs =>
    if c.isDigit then
      let p := takeDigits cs
      (c :: p.1, p.2)
    else ([], c :: cs)

/-- Numeric value of a digit run. -/
def digitsToNat (ds : List Char) : Nat :=
  ds.foldl (fun n c => 10 * n + (c.toNat - 48)) 0

/-- Parse an optional JSON fraction part `.digits`, returned as a rational. -/
def parseFrac : List Char → Option (ℚ × List Char)
  | '.' :: r =>
    let p := takeDigits r
    if p.1.isEmpty then none
    else some ((digitsToNat p.1 : ℚ) / ((10 : ℚ) ^ p.1.length), p.2)
  | s => some (0, s)

/-- Parse an optional JSON exponent part, returned as the multiplier `10^e`. -/
def parseExp : List Char → Option (ℚ × List Char)
  | [] => some (1, [])
  | c :: r =>
    if c = 'e' ∨ c = 'E' then
      let sr : Int × List Char :=
        match r with
        | '+' :: r2 => (1, r2)
        | '-' :: r2 => (-1, r2)
        | _ => (1, r)
      let p := takeDigits sr.2
      if p.1.isEmpty then none
      else some ((10 : ℚ) ^ (sr.1 * (digitsToNat p.1 : Int)), p.2)
    else some (1, c :: r)

/-- Parse a JSON number (optional minus, integer part with no leading zero,
optional fraction, optional exponent). -/
def parseNumber (s : List Char) : Option (ℚ × List Char) :=
  let ns : Bool × List Char :=
    match s with
    | '-' :: r => (true, r)
    | _ => (false, s)
  let p := takeDigits ns.2
  if p.1.isEmpty then none
  else if 1 < p.1.length ∧ p.1.head? = some '0' then none
  else
    match parseFrac p.2 with
    | none => none
    | some (f, s3) =>
      match parseExp s3 with
      | none => none
      | some (m, s4) =>
        let mag := ((digitsToNat p.1 : ℚ) + f) * m
        some (if ns.1 then -mag else mag, s4)

mutual

/-- Fuelled recursive-descent parser for a JSON value; mirrors the grammar
accepted by `JSON.parse`. -/
def parseValue : Nat → List Char → Option (Json × List Char)
  | 0, _ => none
  | fuel + 1, s =>
    match skipWs s with
    | [] => none
    | c :: r =>
      if c = lbrace then parseObject fuel r
      else if c = '[' then parseArray fuel r
      else if c = '"' then
        (parseStringBody (r.length + 1) r).map (fun p => (Json.str (String.mk p.1), p.2))
      else if c = 't' then
        match r with
        | 'r' :: 'u' :: 'e' :: r2 => some (Json.bool true, r2)
        | _ => none
      else if c = 'f' then
        match r with
        | 'a' :: 'l' :: 's' :: 'e' :: r2 => some (Json.bool false, r2)
        | _ => none
      else if c = 'n' then
        match r with
        | 'u' :: 'l' :: 'l' :: r2 => some (Json.null, r2)
        | _ => none
      else (parseNumber (c :: r)).map (fun p => (Json.num p.1, p.2))

/-- Parse the remainder of a JSON array (after the opening bracket). -/
def parseArray : Nat → List Char → Option (Json × List Char)
  | 0, _ => none
  | fuel + 1, s =>
    match skipWs s with
    | ']' :: r => some (Json.arr [], r)
    | s2 => (parseItems fuel s2).map (fun p => (Json.arr p.1, p.2))

/-- Parse one or more comma-separated array items, up to the closing bracket. -/
def parseItems : Nat → List Char → Option (List Json × List Char)
  | 0, _ => none
  | fuel + 1, s =>
    match parseValue fuel s with
    | none => none
    | some (v, r) =>
      match skipWs r with
      | ',' :: r2 => (parseItems fuel r2).map (fun p => (v :: p.1, p.2))
      | ']' :: r2 => some ([v], r2)
      | _ => none

/-- Parse the remainder of a JSON object (after the opening brace). -/
def parseObject : Nat → List Char → Option (Json × List Char)
  | 0, _ => none
  | fuel + 1, s =>
    match skipWs s with
    | [] => none
    | c :: r =>
      if c = rbrace then some (Json.obj [], r)
      else (parseMembers fuel (c :: r)).map (fun p => (Json.obj p.1, p.2))

/-- Parse one or more comma-separated object members, up to the closing brace. -/
def parseMembers : Nat → List Char → Option (List (String × Json) × List Char)
  | 0, _ => none
  | fuel + 1, s =>
    match skipWs s with
    | '"' :: r =>
      match parseStringBody (r.length + 1) r with
      | none => none
      | some (key, r2) =>
        match skipWs r2 with
        | ':' :: r3 =>
          match parseValue fuel r3 with
          | none => none
          | some (v, r4) =>
            match skipWs r4 with
            | [] => none
            | c :: r5 =>
              if c = ',' then
                (parseMembers fuel r5).map (fun p => ((String.mk key, v) :: p.1, p.2))
              else if c = rbrace then some ([(String.mk key, v)], r5)
              else none
        | _ => none
    | _ => none

end

/-- Embedding of `JSON.parse`: parse a complete JSON document; trailing
whitespace is allowed, any other trailing input is an error.  The fuel
`3 * length + 3` dominates the length of any chain of recursive calls, so it
never cuts off a parse of the given input. -/
def jsonParse (s : List Char) : Option Json :=
  match parseValue (3 * s.length + 3) s with
  | some (j, rest) => if (skipWs rest).isEmpty then some j else none
  | none => none

/-- JS property access `data.k` on a parsed JSON document: objects keep the
last binding of a duplicated key (as `JSON.parse` does); access on a
non-object yields `undefined`, here `none`. -/
def getField : Json → String → Option Json
  | Json.obj fields, k => ((fields.filter (fun p => p.1 == k)).getLast?).map (fun p => p.2)
  | _, _ => none

/-- JS truthiness of a JSON value (`NaN` does not arise from our number
model). -/
def jsTruthy : Json → Bool
  | Json.null => false
  | Json.bool b => b
  | Json.num q => !(q == 0)
  | Json.str s => !(s == "")
  | Json.arr _ => true
  | Json.obj _ => true

/-- JS string coercion `String(v)` as used by `aiResponse += data.content`.
Every content frame this codebase handles carries a string, so only the
`str` case is ever exercised; number formatting and array joining are
approximated here and no theorem depends on them. -/
def jsToString : Json → String
  | Json.str s => s
  | Json.bool b => if b then "true" else "false"
  | Json.null => "null"
  | Json.num q => if q.den == 1 then toString q.num else toString q
  | Json.arr _ => ""
  | Json.obj _ => "[object Object]"

/-- JS `chunk.split("\n")`: split a character sequence at every newline,
keeping empty segments (so a trailing newline yields a final empty segment
and the empty input yields one empty segment). -/
def splitNl : List Char → List (List Char)
  | [] => [[]]
  | c :: cs =>
    if c = '\n' then [] :: splitNl cs
    else
      match splitNl cs with
      | [] => [[c]]
      | l :: ls => (c :: l) :: ls

/-- Inner accumulation step of the read loop (both components, identical at
`ai-voice-interface.tsx` lines 117-128 and 445-456): given the part of a
line after the `0:` prefix, `JSON.parse` it, and if that succeeds and the
parsed value has a truthy `content` field, contribute that content; a parse
failure (the `catch`) or a falsy/absent `content` contributes nothing. -/
def contentOf (rest : List Char) : String :=
  match jsonParse rest with
  | some data =>
    match getField data "content" with
    | some v => if jsTruthy v then jsToString v else ""
    | none => ""
  | none => ""

/-- Contribution of one newline-split segment of a chunk: segments with the
`0:` prefix contribute `contentOf` of the remainder (`line.slice(2)`), all
other segments contribute nothing. -/
def contribution (line : List Char) : String :=
  match line with
  | c1 :: c2 :: rest => if c1 = '0' ∧ c2 = ':' then contentOf rest else ""
  | _ => ""

/-- Concatenation of a list of strings, in order. -/
def concatAll : List String → String
  | [] => ""
  | s :: rest => s ++ concatAll rest

/-- Text contributed by a single decoded chunk: the chunk is split on
newlines in isolation (`chunk.split("\n")` in the read loop) and each
segment contributes via `contribution`. -/
def chunkText (chunk : List Char) : String :=
  concatAll ((splitNl chunk).map contribution)

/-- The whole read loop: `aiResponse` after the stream completes, for a
stream delivered as the given list of decoded chunks. -/
def accumulate (chunks : List (List Char)) : String :=
  concatAll (chunks.map chunkText)

/-- Fallback used when nothing was accumulated. -/
def noReplyFallback : String := "I heard you, but I\x27m not sure how to respond to that."

/-- `aiResponse || "I heard you, ..."`: the empty string is falsy in JS. -/
def finalResponse (chunks : List (List Char)) : String :=
  if accumulate chunks = "" then noReplyFallback else accumulate chunks

/-- A segment carrying the `0:` content-frame prefix. -/
def isContentLine : List Char → Bool
  | c1 :: c2 :: _ => c1 == '0' && c2 == ':'
  | _ => false

/-- A malformed content frame: a segment with the `0:` prefix whose remainder
fails to parse as JSON. -/
def malformedFrame (l : List Char) : Bool :=
  isContentLine l && (jsonParse (l.drop 2)).isNone

/-- The four interaction states (`type VoiceState` in the source). -/
inductive VState where
  | idle
  | listening
  | processing
  | speaking
deriving DecidableEq, Repr

/-- The two pieces of React state that drive recognition control flow in
either component: the interaction state and the `isListening` flag. -/
structure UiState where
  vstate : VState
  isListening : Bool
deriving DecidableEq, Repr

/-- Initial React state: `useState("idle")`, `useState(false)`. -/
def initialUiState : UiState := { vstate := VState.idle, isListening := false }

/-- The `onstart` recognizer handler (identical in both components,
`ai-voice-interface.tsx` lines 44-47 and 384-387): set state to listening
and the flag to true. -/
def recogOnStart (_s : UiState) : UiState :=
  { vstate := VState.listening, isListening := true }

/-- The `onend` recognizer handler (identical in both components, lines
59-64 and 394-399): clear the flag, and set the state to idle if the
`state` variable *captured by the handler's closure* reads `listening`.
The handler is registered inside `useEffect(..., [])`, which runs once
after the first render, so that captured variable is the initial state and
never changes afterwards. -/
def recogOnEnd (capturedState : VState) (s : UiState) : UiState :=
  let s2 := { s with isListening := false }
  if capturedState = VState.listening then { s2 with vstate := VState.idle } else s2

/-- The `state` value captured by the mount-time effect's closures: the
initial state, `idle`. -/
def mountCapturedState : VState := VState.idle

/-- The `onerror` recognizer handler (lines 66-70 and 401-404): clear the
flag and set the state to idle unconditionally. -/
def recogOnError (_s : UiState) : UiState :=
  { vstate := VState.idle, isListening := false }

/-- Recognizer lifecycle events delivered by the browser engine. -/
inductive RecogEvent where
  | start
  | endNoResult
  | error
deriving DecidableEq, Repr

/-- One recognizer event applied to the component's React state, with the
handlers as the components actually registered them (so `onend` compares
against the mount-captured state). -/
def recogStep : RecogEvent → UiState → UiState
  | RecogEvent.start, s => recogOnStart s
  | RecogEvent.endNoResult, s => recogOnEnd mountCapturedState s
  | RecogEvent.error, s => recogOnError s

/-- `AIVoiceInterface`: whether a click on the microphone button invokes
`recognitionRef.current.start()`.  The button is disabled while the state is
`processing` or `speaking` (line 234); its `onClick` is `stopListening` when
`isListening` and `startListening` otherwise (line 233); and `startListening`
(lines 162-167) starts recognition only when a recognizer exists and
`isListening` is false.  The render-time values `state` and `isListening`
are fresh on every render, so the current React state is used here. -/
def aiMicClickStartsRecognition (recognitionAvailable : Bool) (s : UiState) : Bool :=
  if s.vstate = VState.processing ∨ s.vstate = VState.speaking then false
  else if s.isListening then false
  else recognitionAvailable && !s.isListening

/-- `GawinVoiceInterface.handleCubeClick` (lines 488-492): start recognition
only when a recognizer exists, `isListening` is false and the state is
`idle`.  `handleCubeClick` is re-created on every render, so it reads the
current React state. -/
def gawinCubeClickStartsRecognition (recognitionAvailable : Bool) (s : UiState) : Bool :=
  recognitionAvailable && !s.isListening && (s.vstate == VState.idle)

/-- The `catch` branch of `GawinVoiceInterface.handleVoiceInput` (lines
473-485): fix the fallback sentence; if a synthesizer handle is present,
enter `speaking` and speak it, else go to `idle`.  Returns the produced
response text and the state set at the end of the turn. -/
def gawinHandleVoiceInputFailure (synthAvailable : Bool) : String × VState :=
  let fallbackResponse := "I\x27m having trouble processing that right now."
  if synthAvailable then (fallbackResponse, VState.speaking)
  else (fallbackResponse, VState.idle)

/-- The `catch` branch of `AIVoiceInterface.handleVoiceInput` (lines
146-159): the fallback sentence ends in " Please try again.", and speaking
additionally requires `!isMuted`.  The `isMuted` read here is the value
captured by the closure chain rooted in the mount-time `onresult` handler. -/
def aiHandleVoiceInputFailure (isMuted synthAvailable : Bool) : String × VState :=
  let fallbackResponse := "I\x27m having trouble processing that right now. Please try again."
  if !isMuted && synthAvailable then (fallbackResponse, VState.speaking)
  else (fallbackResponse, VState.idle)

/-- The `isMuted` value captured by `AIVoiceInterface`'s mount-registered
`onresult` handler (which closes over the first render's `handleVoiceInput`):
the initial value, `false`. -/
def aiMountIsMuted : Bool := false

/-- Resource-release actions a component teardown can perform. -/
inductive TeardownAction where
  | cancelFrame (id : Nat)
  | stopTrack (id : Nat)
  | closeAudioContext
  | stopRecognition
  | cancelSynthesis
deriving DecidableEq, Repr

/-- The handles held by `GawinVoiceInterface`'s audio effect at teardown
time: an optional pending animation-frame id, an optionally acquired media
stream (with its track ids), and whether an `AudioContext` was constructed. -/
structure GawinAudioHandles where
  animationFrame : Option Nat
  streamTracks : Option (List Nat)
  audioContextAcquired : Bool

/-- Cleanup of `GawinVoiceInterface`'s audio effect (lines 331-341): cancel
the pending animation frame if any, stop every track of the stream if it was
acquired, and close the audio context if it was acquired. -/
def gawinAudioCleanup (h : GawinAudioHandles) : List TeardownAction :=
  (match h.animationFrame with
   | some id => [TeardownAction.cancelFrame id]
   | none => []) ++
  (match h.streamTracks with
   | some ts => ts.map TeardownAction.stopTrack
   | none => []) ++
  (if h.audioContextAcquired then [TeardownAction.closeAudioContext] else [])

/-- Cleanup of the recognition effect (identical in both components, lines
77-84 and 410-417): stop the recognizer if its handle was acquired, cancel
the synthesizer if its handle was acquired. -/
def recognitionCleanup (recognitionAcquired synthAcquired : Bool) : List TeardownAction :=
  (if recognitionAcquired then [TeardownAction.stopRecognition] else []) ++
  (if synthAcquired then [TeardownAction.cancelSynthesis] else [])

/-- Full teardown of `GawinVoiceInterface`: both effects' cleanups run on
unmount. -/
def gawinTeardown (h : GawinAudioHandles) (recognitionAcquired synthAcquired : Bool) :
    List TeardownAction :=
  gawinAudioCleanup h ++ recognitionCleanup recognitionAcquired synthAcquired

/-- `analyser.frequencyBinCount`: `fftSize` is set to 256 (line 307), so the
bin count is 128. -/
def frequencyBinCount : Nat := 128

/-- Arithmetic mean of a list of rationals. -/
def arithmeticMean (xs : List ℚ) : ℚ := xs.sum / (xs.length : ℚ)

/-- A frequency bin's byte magnitude as a rational. -/
def binVal (b : Fin 256) : ℚ := ((b : ℕ) : ℚ)

/-- The audio level published per animation frame
(`GawinVoiceInterface.startAudioAnalysis`, lines 350-355): the byte
frequency data (each bin already clamped to 0..255 by
`getByteFrequencyData`, hence `Fin 256`) is summed, divided by the buffer
length, and divided by 255. -/
def audioLevel (bins : List (Fin 256)) : ℚ :=
  ((bins.map binVal).sum / (bins.length : ℚ)) / 255

/-- A chat message as sent to the provider. -/
structure ModelMessage where
  role : String
  content : String
deriving DecidableEq, Repr

/-- The parameters of the `streamText` call made by the chat route. -/
structure ProviderCall where
  model : String
  messages : List ModelMessage
  maxTokens : Nat
  temperature : ℚ

/-- `export const maxDuration = 30` in the chat route. -/
def routeMaxDuration : Nat := 30

/-- The provider invocation performed by the chat route's `POST` handler
(`src/unnamed/part_001` lines 6-18) on a successfully parsed body: the
caller's messages pass through the external `convertToModelMessages`
(abstracted here as an arbitrary conversion function), and every other
parameter is a literal constant in the source. -/
def chatRoutePOST (convertToModelMessages : List ModelMessage → List ModelMessage)
    (messages : List ModelMessage) : ProviderCall :=
  { model := "gpt-4o-mini"
    messages := convertToModelMessages messages
    maxTokens := 150
    temperature := 7 / 10 }

/-- A well-formed content frame: a segment with the `0:` prefix whose
remainder parses as JSON. -/
def wellFormedFrame (l : List Char) : Bool :=
  isContentLine l && (jsonParse (l.drop 2)).isSome

/-- Helper: concatenation distributes over list append. -/
theorem concatAll_append (a b : List String) :
    concatAll (a ++ b) = concatAll a ++ concatAll b := by
  induction a with
  | nil => simp [concatAll]
  | cons s rest ih => simp [concatAll, ih, String.append_assoc]

/-- Helper: splitting never yields the empty list of segments. -/
theorem splitNl_ne_nil (xs : List Char) : splitNl xs ≠ [] := by
  cases xs with
  | nil => simp [splitNl]
  | cons c cs =>
    simp only [splitNl]
    split
    · simp
    · split <;> simp

/-- Helper: splitting at an explicit newline separates the two sides
exactly; this is what makes per-chunk splitting compose when chunk
boundaries sit at line breaks. -/
theorem splitNl_append_newline (a b : List Char) :
    splitNl (a ++ '\n' :: b) = splitNl a ++ splitNl b := by
  induction a with
  | nil => simp [splitNl]
  | cons c a ih =>
    by_cases hc : c = '\n'
    · subst hc
      simp [splitNl, ih]
    · rcases hsa : splitNl a with _ | ⟨l, ls⟩
      · exact absurd hsa (splitNl_ne_nil a)
      · simp only [List.cons_append, splitNl, if_neg hc, ih, hsa, List.append_eq]

/-- Helper: a chunk whose text contains an explicit newline contributes the
two sides independently. -/
theorem chunkText_append_newline (a b : List Char) :
    chunkText (a ++ '\n' :: b) = chunkText a ++ chunkText b := by
  unfold chunkText
  rw [splitNl_append_newline, List.map_append, concatAll_append]

/-- Helper: a segment that is not a well-formed content frame contributes
nothing (this covers segments without the `0:` prefix, and segments whose
remainder fails `JSON.parse`). -/
theorem contribution_eq_empty_of_not_wellFormed (l : List Char)
    (hw : wellFormedFrame l = false) : contribution l = "" := by
  match l with
  | [] => rfl
  | [_] => rfl
  | c1 :: c2 :: rest =>
    unfold contribution
    by_cases h1 : c1 = '0' ∧ c2 = ':'
    · obtain ⟨hc1, hc2⟩ := h1
      subst hc1; subst hc2
      simp only [wellFormedFrame, isContentLine, beq_self_eq_true, Bool.and_self,
        List.drop_succ_cons, List.drop_zero, Bool.true_and] at hw
      have hnone : jsonParse rest = none := by
        cases h : jsonParse rest with
        | none => rfl
        | some j => rw [h] at hw; simp at hw
      simp [contentOf, hnone]
    · simp [if_neg h1]

/-- Helper: dropping every segment that is not a well-formed content frame
does not change the accumulated text. -/
theorem concatAll_filter_wellFormed (ls : List (List Char)) :
    concatAll (ls.map contribution) =
      concatAll ((ls.filter wellFormedFrame).map contribution) := by
  induction ls with
  | nil => rfl
  | cons l rest ih =>
    by_cases hw : wellFormedFrame l = true
    · simp [List.filter, hw, concatAll, ih]
    · have hz : contribution l = "" :=
        contribution_eq_empty_of_not_wellFormed l (by simpa using hw)
      simp [List.filter, hw, concatAll, hz, ih, String.empty_append]

/-- Helper: if no segment of a list contributes, the concatenation is
empty. -/
theorem concatAll_contrib_empty (ls : List (List Char))
    (h : ∀ l ∈ ls, contribution l = "") :
    concatAll (ls.map contribution) = "" := by
  induction ls with
  | nil => rfl
  | cons l rest ih =>
    simp only [List.map_cons, concatAll, h l (by simp), String.empty_append]
    exact ih (fun x hx => h x (by simp [hx]))

/-- Helper: a segment without the `0:` prefix contributes nothing. -/
theorem contribution_eq_empty_of_not_content (l : List Char)
    (h : isContentLine l = false) : contribution l = "" := by
  apply contribution_eq_empty_of_not_wellFormed
  unfold wellFormedFrame
  rw [h]
  rfl

/-- C1 counterexample: in `AIVoiceInterface` (which the claim covers through
its cited `handleVoiceInput`), when the completion call fails the produced
response text is "I'm having trouble processing that right now. Please try
again." — not the fixed sentence the claim states. -/
theorem c1_ai_fallback_text_counterexample :
    (aiHandleVoiceInputFailure aiMountIsMuted true).1 ≠
      "I\x27m having trouble processing that right now." := by
  decide

/-- C1 amended: on a failing completion call, `GawinVoiceInterface` produces
exactly "I'm having trouble processing that right now.", while
`AIVoiceInterface` produces "I'm having trouble processing that right now.
Please try again."; in both components the state at the end of the turn is
`speaking` if a synthesizer capability is available and `idle` otherwise
(in `AIVoiceInterface` the mute flag read by the failure path is the
mount-captured initial value `false`). -/
theorem c1_failure_fallback_and_state :
    ∀ synthAvailable : Bool,
      gawinHandleVoiceInputFailure synthAvailable =
        ("I\x27m having trouble processing that right now.",
          if synthAvailable then VState.speaking else VState.idle) ∧
      aiHandleVoiceInputFailure aiMountIsMuted synthAvailable =
        ("I\x27m having trouble processing that right now. Please try again.",
          if synthAvailable then VState.speaking else VState.idle) := by
  decide

/-- C2: the claim that triggering start-listening in any non-`idle` state
never starts recognition fails in `AIVoiceInterface`.  After the reachable
event sequence mount, mic click, recognizer `onstart`, recognizer `onend`
without a final result, the React state is `listening` with `isListening`
false (the stale `onend` closure compares the mount-captured `idle` and so
leaves the state at `listening`); a mic-button click in that configuration
calls `recognition.start()`.  The cube click of `GawinVoiceInterface`
checks the fresh state directly and stays a no-op. -/
theorem c2_stale_listening_click_starts_recognition :
    (recogStep RecogEvent.endNoResult (recogStep RecogEvent.start initialUiState)).vstate =
      VState.listening ∧
    aiMicClickStartsRecognition true
      (recogStep RecogEvent.endNoResult (recogStep RecogEvent.start initialUiState)) = true ∧
    gawinCubeClickStartsRecognition true
      (recogStep RecogEvent.endNoResult (recogStep RecogEvent.start initialUiState)) = false := by
  decide

/-- C3: a streamed body consisting of exactly the two content frames with
contents "Hel" and "lo" accumulates to "Hello", whether the two frames
arrive in one decoded chunk or in two. -/
theorem c3_two_content_frames_yield_hello :
    accumulate [("0:\x7b\"content\":\"Hel\"\x7d\n0:\x7b\"content\":\"lo\"\x7d").toList] =
      "Hello" ∧
    accumulate [("0:\x7b\"content\":\"Hel\"\x7d\n").toList,
        ("0:\x7b\"content\":\"lo\"\x7d\n").toList] = "Hello" := by
  decide

/-- C4: if no segment of any chunk carries the `0:` content-frame prefix,
nothing is accumulated and the final response is the fixed fallback
"I heard you, but I'm not sure how to respond to that.". -/
theorem c4_no_content_frames_fallback (chunks : List (List Char))
    (h : ∀ c ∈ chunks, ∀ l ∈ splitNl c, isContentLine l = false) :
    finalResponse chunks = noReplyFallback := by
  have hacc : accumulate chunks = "" := by
    unfold accumulate
    induction chunks with
    | nil => rfl
    | cons c rest ih =>
      have hc : chunkText c = "" := by
        unfold chunkText
        exact concatAll_contrib_empty _ (fun l hl =>
          contribution_eq_empty_of_not_content l (h c (by simp) l hl))
      simp only [List.map_cons, concatAll, hc, String.empty_append]
      exact ih (fun c2 hc2 => h c2 (by simp [hc2]))
  unfold finalResponse
  rw [hacc]
  rfl

/-- C4 witness: a concrete stream with no content frame falls back. -/
theorem c4_witness :
    finalResponse [("hello world").toList, ("1:other\nnoise\n").toList] = noReplyFallback :=
  c4_no_content_frames_fallback
    [("hello world").toList, ("1:other\nnoise\n").toList] (by decide)

/-- C5: the claim says the recognizer ending without a final transcript
returns a `listening` machine to `idle`.  In both components the `onend`
handler leaves the state at `listening` (it compares the mount-captured
state `idle` against `listening`, so the reset never fires), while `onerror`
does return to `idle` as claimed. -/
theorem c5_onend_keeps_listening_onerror_idles :
    recogStep RecogEvent.endNoResult
        { vstate := VState.listening, isListening := true } =
      { vstate := VState.listening, isListening := false } ∧
    recogStep RecogEvent.error
        { vstate := VState.listening, isListening := true } =
      { vstate := VState.idle, isListening := false } := by
  decide

/-- C6: a malformed content frame (a `0:`-prefixed segment whose remainder
fails to parse as JSON) is skipped without aborting the stream: the
accumulated text of every stream equals the text produced by the
well-formed content frames alone. -/
theorem c6_malformed_frames_skipped :
    ∀ chunks : List (List Char),
      accumulate chunks =
        concatAll (chunks.map fun c =>
          concatAll (((splitNl c).filter wellFormedFrame).map contribution)) := by
  intro chunks
  unfold accumulate chunkText
  congr 1
  exact List.map_congr_left (fun c _ => concatAll_filter_wellFormed (splitNl c))

/-- C7: the published audio level is the arithmetic mean of the frequency
bins divided by 255, and lies in the unit interval for every byte-clamped
sample array of the analyser's bin count. -/
theorem c7_audio_level_mean_and_clamped (bins : List (Fin 256))
    (h : bins.length = frequencyBinCount) :
    audioLevel bins = arithmeticMean (bins.map binVal) / 255 ∧
    0 ≤ audioLevel bins ∧ audioLevel bins ≤ 1 := by
  have hlen : ((bins.length : ℕ) : ℚ) = 128 := by
    rw [h]; norm_num [frequencyBinCount]
  have hsum_nonneg : 0 ≤ (bins.map binVal).sum := by
    apply List.sum_nonneg
    intro x hx
    obtain ⟨b, _, rfl⟩ := List.mem_map.mp hx
    unfold binVal
    positivity
  have hsum_le : (bins.map binVal).sum ≤ ((bins.length : ℕ) : ℚ) * 255 := by
    have hb : ∀ x ∈ bins.map binVal, x ≤ (255 : ℚ) := by
      intro x hx
      obtain ⟨b, _, rfl⟩ := List.mem_map.mp hx
      unfold binVal
      exact_mod_cast Nat.le_of_lt_succ b.isLt
    have := List.sum_le_card_nsmul (bins.map binVal) 255 hb
    simpa [List.length_map, nsmul_eq_mul] using this
  refine ⟨?_, ?_, ?_⟩
  · unfold audioLevel arithmeticMean
    rw [List.length_map]
  · unfold audioLevel
    rw [hlen]
    exact div_nonneg (div_nonneg hsum_nonneg (by norm_num)) (by norm_num)
  · unfold audioLevel
    rw [hlen] at hsum_le ⊢
    rw [div_div]
    exact div_le_one_of_le₀ (by linarith) (by norm_num)

/-- C7 witness: a saturated sample array of the analyser's bin count has a
level within the unit interval. -/
theorem c7_witness :
    0 ≤ audioLevel (List.replicate 128 (255 : Fin 256)) ∧
      audioLevel (List.replicate 128 (255 : Fin 256)) ≤ 1 := by
  have h := c7_audio_level_mean_and_clamped (List.replicate 128 (255 : Fin 256))
    (by simp [frequencyBinCount])
  exact ⟨h.2.1, h.2.2⟩

/-- C8: on teardown, whenever a resource handle was acquired it is released:
every track of an acquired media stream is stopped, an acquired audio
context is closed, a pending animation frame is cancelled, the recognizer is
stopped, and in-flight synthesis is cancelled — in `GawinVoiceInterface`'s
combined teardown, and likewise in the recognition-effect cleanup that is
all of `AIVoiceInterface`'s teardown. -/
theorem c8_teardown_releases_acquired (h : GawinAudioHandles)
    (recognitionAcquired synthAcquired : Bool) :
    (∀ ts, h.streamTracks = some ts → ∀ t ∈ ts,
      TeardownAction.stopTrack t ∈ gawinTeardown h recognitionAcquired synthAcquired) ∧
    (h.audioContextAcquired = true →
      TeardownAction.closeAudioContext ∈ gawinTeardown h recognitionAcquired synthAcquired) ∧
    (∀ id, h.animationFrame = some id →
      TeardownAction.cancelFrame id ∈ gawinTeardown h recognitionAcquired synthAcquired) ∧
    (recognitionAcquired = true →
      TeardownAction.stopRecognition ∈ gawinTeardown h recognitionAcquired synthAcquired) ∧
    (synthAcquired = true →
      TeardownAction.cancelSynthesis ∈ gawinTeardown h recognitionAcquired synthAcquired) ∧
    (recognitionAcquired = true →
      TeardownAction.stopRecognition ∈ recognitionCleanup recognitionAcquired synthAcquired) ∧
    (synthAcquired = true →
      TeardownAction.cancelSynthesis ∈ recognitionCleanup recognitionAcquired synthAcquired) := by
  refine ⟨?_, ?_, ?_, ?_, ?_, ?_, ?_⟩
  · intro ts hts t ht
    unfold gawinTeardown gawinAudioCleanup
    apply List.mem_append_left
    apply List.mem_append_left
    apply List.mem_append_right
    rw [hts]
    exact List.mem_map.mpr ⟨t, ht, rfl⟩
  · intro hctx
    unfold gawinTeardown gawinAudioCleanup
    apply List.mem_append_left
    apply List.mem_append_right
    rw [hctx]
    simp
  · intro id hid
    unfold gawinTeardown gawinAudioCleanup
    apply List.mem_append_left
    apply List.mem_append_left
    apply List.mem_append_left
    rw [hid]
    simp
  · intro hr
    unfold gawinTeardown recognitionCleanup
    apply List.mem_append_right
    apply List.mem_append_left
    rw [hr]
    simp
  · intro hs
    unfold gawinTeardown recognitionCleanup
    apply List.mem_append_right
    apply List.mem_append_right
    rw [hs]
    simp
  · intro hr
    unfold recognitionCleanup
    apply List.mem_append_left
    rw [hr]
    simp
  · intro hs
    unfold recognitionCleanup
    apply List.mem_append_right
    rw [hs]
    simp

/-- C8 witness: with every handle acquired, each release action is
performed. -/
theorem c8_witness :
    TeardownAction.stopTrack 2 ∈
      gawinTeardown ⟨some 7, some [1, 2], true⟩ true true ∧
    TeardownAction.closeAudioContext ∈
      gawinTeardown ⟨some 7, some [1, 2], true⟩ true true ∧
    TeardownAction.cancelFrame 7 ∈
      gawinTeardown ⟨some 7, some [1, 2], true⟩ true true ∧
    TeardownAction.stopRecognition ∈
      gawinTeardown ⟨some 7, some [1, 2], true⟩ true true ∧
    TeardownAction.cancelSynthesis ∈
      gawinTeardown ⟨some 7, some [1, 2], true⟩ true true ∧
    TeardownAction.stopRecognition ∈ recognitionCleanup true true := by
  have h := c8_teardown_releases_acquired ⟨some 7, some [1, 2], true⟩ true true
  exact ⟨h.1 [1, 2] rfl 2 (by simp), h.2.1 rfl, h.2.2.1 7 rfl,
    h.2.2.2.1 rfl, h.2.2.2.2.1 rfl, h.2.2.2.2.2.1 rfl⟩

/-- C9: the chat route invokes the provider with the fixed model
"gpt-4o-mini", a 150-token output cap, temperature 0.7, and a 30-second
maximum duration; none of these depends on the caller's messages or on the
message conversion. -/
theorem c9_provider_call_parameters_fixed :
    ∀ (convert : List ModelMessage → List ModelMessage) (m1 m2 : List ModelMessage),
      (chatRoutePOST convert m1).model = "gpt-4o-mini" ∧
      (chatRoutePOST convert m1).maxTokens = 150 ∧
      (chatRoutePOST convert m1).temperature = 7 / 10 ∧
      routeMaxDuration = 30 ∧
      (chatRoutePOST convert m1).model = (chatRoutePOST convert m2).model ∧
      (chatRoutePOST convert m1).maxTokens = (chatRoutePOST convert m2).maxTokens ∧
      (chatRoutePOST convert m1).temperature = (chatRoutePOST convert m2).temperature := by
  intro _ _ _
  exact ⟨rfl, rfl, rfl, rfl, rfl, rfl, rfl⟩

/-- C10 counterexample: deliver the single body line consisting of a `0:`
prefix, a JSON object with content "a", and a trailing "x", split into two
chunks right after the object.  The body's only nonempty line fails
`JSON.parse` as a whole, so no line of the body is a content frame and the
claim predicts an empty accumulation; but the first chunk's fragment passes
the prefix-and-parse check on its own and the code accumulates "a". -/
theorem c10_boundary_fragment_counterexample :
    accumulate [("0:\x7b\"content\":\"a\"\x7d").toList, ("x\n").toList] = "a" ∧
    (∀ l ∈ splitNl (("0:\x7b\"content\":\"a\"\x7d").toList ++ ("x\n").toList),
      contribution l = "") ∧
    chunkText (("0:\x7b\"content\":\"a\"\x7d").toList ++ ("x\n").toList) = "" := by
  decide

/-- C10 amended: each chunk is split on newlines in isolation and every
segment contributes exactly when it passes the prefix-and-JSON-parse check —
a fragment of a line that spans a chunk boundary can itself pass the check
and contribute, so the accumulated response need not equal the contribution
of whole-body content frames.  When every chunk ends at a line break (so no
line spans a boundary), the accumulated response does equal the
accumulation over the body's own lines. -/
theorem c10_chunkwise_accumulation (chunks : List (List Char))
    (h : ∀ c ∈ chunks, ∃ d, c = d ++ ['\n']) :
    accumulate chunks = chunkText chunks.flatten := by
  induction chunks with
  | nil => rfl
  | cons c rest ih =>
    obtain ⟨d, rfl⟩ := h c (by simp)
    have hrest : accumulate rest = chunkText rest.flatten :=
      ih (fun c2 hc2 => h c2 (by simp [hc2]))
    have hstep : accumulate ((d ++ ['\n']) :: rest) =
        chunkText (d ++ ['\n']) ++ accumulate rest := rfl
    have hc : chunkText (d ++ ['\n']) = chunkText d := by
      have h1 : d ++ ['\n'] = d ++ '\n' :: ([] : List Char) := rfl
      rw [h1, chunkText_append_newline]
      have hnil : chunkText ([] : List Char) = "" := rfl
      rw [hnil, String.append_empty]
    have hflat : ((d ++ ['\n']) :: rest).flatten = d ++ '\n' :: rest.flatten := by
      rw [List.flatten_cons, List.append_assoc]
      rfl
    rw [hstep, hc, hrest, hflat, chunkText_append_newline]

/-- C10 witness: with both chunks newline-terminated, chunkwise accumulation
agrees with accumulation over the body's own lines. -/
theorem c10_witness :
    accumulate [("0:\x7b\"content\":\"Hel\"\x7d\n").toList,
        ("0:\x7b\"content\":\"lo\"\x7d\n").toList] =
      chunkText (List.flatten [("0:\x7b\"content\":\"Hel\"\x7d\n").toList,
        ("0:\x7b\"content\":\"lo\"\x7d\n").toList]) := by
  apply c10_chunkwise_accumulation
  intro c hc
  simp only [List.mem_cons, List.not_mem_nil, or_false] at hc
  rcases hc with h | h <;> subst h
  · exact ⟨("0:\x7b\"content\":\"Hel\"\x7d").toList, by decide⟩
  · exact ⟨("0:\x7b\"content\":\"lo\"\x7d").toList, by decide⟩

end GawinVoice
